import Mathlib

/-!
Shallow embedding of src/tcutils/kubernetes/api_client.py.

The file models the retry decorator retry_on_api_exception together with the
Client methods the verification targets: init_clients (as a reconnect callback
that may fail), create_namespace (annotation construction), delete_pod,
is_namespace_present and get_replica_set.

Python exceptions are modelled by an explicit error type that separates the
kubernetes ApiException (the transient class the decorator catches) from every
other exception kind.  A wrapped operation is a function from its invocation
index (0-based: the i-th time the decorator calls it) to a result, which lets
one operation fail on some invocations and succeed on others, exactly as a
stateful remote call would.  Observable side effects of a decorated call
(number of invocations of the wrapped function, warning logs, sleeps, and
invocations of init_clients) are collected in a trace.
-/

namespace ApiClient

/-- An exception kind: the kubernetes ApiException, or any other exception. -/
inductive Exc where
  | api (msg : String)
  | other (msg : String)
deriving DecidableEq, Repr

/-- Observable side effects of one run of the decorated wrapper:
how many times the wrapped function was invoked, how many warning log
entries were emitted, how many time.sleep calls happened, and how many
times cls_obj.init_clients was invoked. -/
structure Trace where
  calls : Nat
  warnings : Nat
  sleeps : Nat
  reconnects : Nat
deriving DecidableEq, Repr

/-- The empty trace at the start of a wrapper run. -/
def Trace.init : Trace := ⟨0, 0, 0, 0⟩

/-- The for-loop of retry_on_api_exception.wrapper (api_client.py lines 20-26):
`for i in range(tries): try: return f(...) except ApiException: warn; sleep`.
`fuel` is the number of remaining loop iterations, `i` the invocation index of
the next call to the wrapped function `f`, `t` the trace so far.  The result is
the trace after the loop, the next invocation index, and `some r` when the loop
ended by returning or by propagating a non-ApiException (`none` when the loop
exhausted all iterations with ApiException failures). -/
def retryLoop {α : Type} (f : Nat → Except Exc α) :
    Nat → Nat → Trace → Trace × Nat × Option (Except Exc α)
  | 0, i, t => (t, i, none)
  | fuel + 1, i, t =>
    match f i with
    | .ok v => ({ t with calls := t.calls + 1 }, i + 1, some (.ok v))
    | .error (.api _) =>
        retryLoop f fuel (i + 1)
          { t with calls := t.calls + 1, warnings := t.warnings + 1,
                   sleeps := t.sleeps + 1 }
    | .error (.other m) =>
        ({ t with calls := t.calls + 1 }, i + 1, some (.error (.other m)))

/-- retry_on_api_exception.wrapper (api_client.py lines 19-28): run the bounded
loop; if it exhausts, call cls_obj.init_clients() (modelled by `initClients`,
`some e` meaning the reconnect itself raises exception `e`) and, when the
reconnect succeeds, make one final unguarded attempt whose outcome is returned
or raised directly. -/
def wrapper {α : Type} (tries : Nat) (f : Nat → Except Exc α)
    (initClients : Option Exc) : Trace × Except Exc α :=
  match retryLoop f tries 0 Trace.init with
  | (t, _, some r) => (t, r)
  | (t, i, none) =>
    match initClients with
    | some e => ({ t with reconnects := t.reconnects + 1 }, .error e)
    | none =>
        ({ t with reconnects := t.reconnects + 1, calls := t.calls + 1 }, f i)

/-- If every remaining iteration hits an ApiException, the loop exhausts its
fuel, invoking the function, warning and sleeping once per iteration. -/
theorem retryLoop_all_api {α : Type} (f : Nat → Except Exc α)
    (fuel : Nat) :
    ∀ (i : Nat) (t : Trace),
      (∀ j, j < fuel → ∃ e, f (i + j) = .error (.api e)) →
      retryLoop f fuel i t =
        ({ t with calls := t.calls + fuel, warnings := t.warnings + fuel,
                  sleeps := t.sleeps + fuel }, i + fuel, none) := by
  induction fuel with
  | zero => intro i t _; simp [retryLoop]
  | succ n ih =>
    intro i t hf
    obtain ⟨e, he⟩ := hf 0 n.succ_pos
    rw [Nat.add_zero] at he
    obtain ⟨c, w, s, rc⟩ := t
    have step : retryLoop f (n + 1) i ⟨c, w, s, rc⟩ =
        retryLoop f n (i + 1) ⟨c + 1, w + 1, s + 1, rc⟩ := by
      simp [retryLoop, he]
    rw [step, ih (i + 1) ⟨c + 1, w + 1, s + 1, rc⟩ ?_]
    · rw [show c + 1 + n = c + (n + 1) by omega, show w + 1 + n = w + (n + 1) by omega,
        show s + 1 + n = s + (n + 1) by omega, show i + 1 + n = i + (n + 1) by omega]
    · intro j hj
      obtain ⟨e', he'⟩ := hf (j + 1) (by omega)
      exact ⟨e', by rw [show i + 1 + j = i + (j + 1) by omega]; exact he'⟩

/-- If the first `k` iterations hit an ApiException and iteration `k` produces
a result that is not an ApiException (a return, or any other exception), the
loop stops there with `k + 1` invocations and `k` warnings and sleeps. -/
theorem retryLoop_stop {α : Type} (f : Nat → Except Exc α) (k : Nat) :
    ∀ (fuel i : Nat) (t : Trace) (r : Except Exc α),
      (∀ j, j < k → ∃ e, f (i + j) = .error (.api e)) →
      k < fuel →
      f (i + k) = r →
      (∀ e, r ≠ .error (.api e)) →
      retryLoop f fuel i t =
        ({ t with calls := t.calls + k + 1, warnings := t.warnings + k,
                  sleeps := t.sleeps + k }, i + k + 1, some r) := by
  induction k with
  | zero =>
    intro fuel i t r _ hk hr hna
    obtain ⟨fuel', rfl⟩ : ∃ m, fuel = m + 1 := ⟨fuel - 1, by omega⟩
    rw [Nat.add_zero] at hr
    obtain ⟨c, w, s, rc⟩ := t
    rcases r with e | v
    · rcases e with m | m
      · exact absurd rfl (hna m)
      · simp [retryLoop, hr]
    · simp [retryLoop, hr]
  | succ n ih =>
    intro fuel i t r hfail hk hr hna
    obtain ⟨fuel', rfl⟩ : ∃ m, fuel = m + 1 := ⟨fuel - 1, by omega⟩
    obtain ⟨e, he⟩ := hfail 0 n.succ_pos
    rw [Nat.add_zero] at he
    obtain ⟨c, w, s, rc⟩ := t
    have step : retryLoop f (fuel' + 1) i ⟨c, w, s, rc⟩ =
        retryLoop f fuel' (i + 1) ⟨c + 1, w + 1, s + 1, rc⟩ := by
      simp [retryLoop, he]
    rw [step, ih fuel' (i + 1) ⟨c + 1, w + 1, s + 1, rc⟩ r ?_ (by omega) ?_ hna]
    · rw [show c + 1 + n + 1 = c + (n + 1) + 1 by omega,
        show w + 1 + n = w + (n + 1) by omega, show s + 1 + n = s + (n + 1) by omega,
        show i + 1 + n + 1 = i + (n + 1) + 1 by omega]
    · intro j hj
      obtain ⟨e', he'⟩ := hfail (j + 1) (by omega)
      exact ⟨e', by rw [show i + 1 + j = i + (j + 1) by omega]; exact he'⟩
    · rw [show i + 1 + n = i + (n + 1) by omega]; exact hr

/-- The loop never decreases the invocation count of its input trace. -/
theorem retryLoop_calls_le {α : Type} (f : Nat → Except Exc α) (fuel : Nat) :
    ∀ (i : Nat) (t : Trace), t.calls ≤ (retryLoop f fuel i t).1.calls := by
  induction fuel with
  | zero => intro i t; simp [retryLoop]
  | succ n ih =>
    intro i t
    obtain ⟨c, w, s, rc⟩ := t
    rcases hfi : f i with e | v
    · rcases e with m | m
      · have h := ih (i + 1) ⟨c + 1, w + 1, s + 1, rc⟩
        simp only [retryLoop, hfi]
        simp only [] at h
        exact Nat.le_trans (Nat.le_succ c) h
      · simp [retryLoop, hfi]
    · simp [retryLoop, hfi]

/-- After `m` ApiException failures with fuel to spare, the loop makes at
least one further invocation: at least `m + 1` calls in total. -/
theorem retryLoop_calls_lower {α : Type} (f : Nat → Except Exc α) (m : Nat) :
    ∀ (fuel i : Nat) (t : Trace), m < fuel →
      (∀ j, j < m → ∃ e, f (i + j) = .error (.api e)) →
      t.calls + m + 1 ≤ (retryLoop f fuel i t).1.calls := by
  induction m with
  | zero =>
    intro fuel i t hm _
    obtain ⟨fuel', rfl⟩ : ∃ k, fuel = k + 1 := ⟨fuel - 1, by omega⟩
    obtain ⟨c, w, s, rc⟩ := t
    rcases hfi : f i with e | v
    · rcases e with msg | msg
      · have h := retryLoop_calls_le f fuel' (i + 1) ⟨c + 1, w + 1, s + 1, rc⟩
        simp only [retryLoop, hfi]
        simp at h ⊢
        omega
      · simp [retryLoop, hfi]
    · simp [retryLoop, hfi]
  | succ n ih =>
    intro fuel i t hm hfail
    obtain ⟨fuel', rfl⟩ : ∃ k, fuel = k + 1 := ⟨fuel - 1, by omega⟩
    obtain ⟨e, he⟩ := hfail 0 n.succ_pos
    rw [Nat.add_zero] at he
    obtain ⟨c, w, s, rc⟩ := t
    have step : retryLoop f (fuel' + 1) i ⟨c, w, s, rc⟩ =
        retryLoop f fuel' (i + 1) ⟨c + 1, w + 1, s + 1, rc⟩ := by
      simp [retryLoop, he]
    rw [step]
    have h := ih fuel' (i + 1) ⟨c + 1, w + 1, s + 1, rc⟩ (by omega) ?_
    · simp at h ⊢
      omega
    · intro j hj
      obtain ⟨e', he'⟩ := hfail (j + 1) (by omega)
      exact ⟨e', by rw [show i + 1 + j = i + (j + 1) by omega]; exact he'⟩

/-- Wrapper-level consequence of `retryLoop_stop`: if the first `k` attempts
fail with an ApiException and attempt `k` (still within the bounded loop,
`k < tries`) yields a non-ApiException result, the wrapper returns that result
with `k + 1` invocations, `k` warnings and sleeps, and no reconnect. -/
theorem wrapper_stop {α : Type} (N k : Nat) (f : Nat → Except Exc α)
    (rc : Option Exc) (r : Except Exc α)
    (hk : k < N)
    (hfail : ∀ i, i < k → ∃ e, f i = .error (.api e))
    (hr : f k = r) (hna : ∀ e, r ≠ .error (.api e)) :
    wrapper N f rc = (⟨k + 1, k, k, 0⟩, r) := by
  have hloop := retryLoop_stop f k N 0 Trace.init r
    (fun j hj => by simpa using hfail j hj) hk (by simpa using hr) hna
  unfold wrapper
  rw [hloop]
  simp [Trace.init]

/-- Wrapper-level consequence of `retryLoop_all_api`: if all `tries` bounded
attempts fail with an ApiException, the loop exhausts, init_clients is invoked
once, and either its own exception is raised (final attempt never made) or the
final attempt's outcome is returned or raised directly. -/
theorem wrapper_exhaust {α : Type} (N : Nat) (f : Nat → Except Exc α)
    (rc : Option Exc)
    (hf : ∀ i, i < N → ∃ e, f i = .error (.api e)) :
    wrapper N f rc =
      match rc with
      | some e => (⟨N, N, N, 1⟩, .error e)
      | none => (⟨N + 1, N, N, 1⟩, f N) := by
  have hloop := retryLoop_all_api f N 0 Trace.init
    (fun j hj => by simpa using hf j hj)
  unfold wrapper
  rw [hloop]
  rcases rc with _ | e <;> simp [Trace.init]

/-- The wrapper invokes the operation at least as often as the bounded loop
does (the post-loop final attempt only adds to the count). -/
theorem wrapper_calls_ge_loop {α : Type} (N : Nat) (f : Nat → Except Exc α) :
    (retryLoop f N 0 Trace.init).1.calls ≤ (wrapper N f none).1.calls := by
  unfold wrapper
  rcases h : retryLoop f N 0 Trace.init with ⟨t, i, ro⟩
  rcases ro with _ | r
  · simp
  · simp

/-- C1: with attempt bound N and an operation raising ApiException on every
invocation (and a functioning reconnect), the wrapper invokes the operation
exactly N + 1 times, invokes init_clients exactly once, and raises the
ApiException of the final post-reconnect attempt (invocation index N) to the
caller. -/
theorem retry_always_transient {α : Type} (N : Nat) (f : Nat → Except Exc α)
    (hf : ∀ i, ∃ e, f i = .error (.api e)) :
    (wrapper N f none).1.calls = N + 1 ∧
    (wrapper N f none).1.reconnects = 1 ∧
    (wrapper N f none).2 = f N := by
  rw [wrapper_exhaust N f none fun i _ => hf i]
  exact ⟨rfl, rfl, rfl⟩

/-- Witness for C1 at N = 2 and an operation that always raises. -/
theorem retry_always_transient_witness :
    (wrapper 2 (fun _ => (Except.error (Exc.api "boom") : Except Exc Nat))
        none).1.calls = 2 + 1 ∧
    (wrapper 2 (fun _ => (Except.error (Exc.api "boom") : Except Exc Nat))
        none).1.reconnects = 1 ∧
    (wrapper 2 (fun _ => (Except.error (Exc.api "boom") : Except Exc Nat))
        none).2 = Except.error (Exc.api "boom") :=
  retry_always_transient 2 (fun _ => Except.error (Exc.api "boom"))
    (fun _ => ⟨"boom", rfl⟩)

/-- C2: an operation that raises ApiException on its first k - 1 invocations
and succeeds on invocation k, with 1 ≤ k ≤ N, is invoked exactly k times; the
reconnect callback is never invoked (the result is the same whatever the
reconnect would do) and the operation's result is returned with no error. -/
theorem retry_success_no_reconnect {α : Type} (N k : Nat)
    (f : Nat → Except Exc α) (v : α) (rc : Option Exc)
    (hk1 : 1 ≤ k) (hkN : k ≤ N)
    (hfail : ∀ i, i < k - 1 → ∃ e, f i = .error (.api e))
    (hok : f (k - 1) = .ok v) :
    (wrapper N f rc).1.calls = k ∧
    (wrapper N f rc).1.reconnects = 0 ∧
    (wrapper N f rc).2 = .ok v := by
  have h := wrapper_stop N (k - 1) f rc (.ok v) (by omega) hfail hok
    (fun e h => by simp at h)
  rw [h]
  refine ⟨by simp; omega, rfl, rfl⟩

/-- Witness for C2 at N = 3, success on invocation k = 2. -/
theorem retry_success_no_reconnect_witness :
    (wrapper 3 (fun i => if i = 0 then Except.error (Exc.api "e")
        else Except.ok 7) none).1.calls = 2 ∧
    (wrapper 3 (fun i => if i = 0 then Except.error (Exc.api "e")
        else Except.ok 7) none).1.reconnects = 0 ∧
    (wrapper 3 (fun i => if i = 0 then Except.error (Exc.api "e")
        else Except.ok 7) none).2 = Except.ok 7 :=
  retry_success_no_reconnect 3 2
    (fun i => if i = 0 then Except.error (Exc.api "e") else Except.ok 7) 7 none
    (by omega) (by omega)
    (fun i hi => ⟨"e", by interval_cases i; rfl⟩) rfl

/-- An operation for the C3 counterexample: ApiException on invocation 0,
a non-ApiException error from invocation 1 on. -/
def postReconnectOther : Nat → Except Exc Nat := fun i =>
  if i = 0 then .error (.api "conn") else .error (.other "boom")

/-- C3 counterexample: with tries = 1 and an operation whose first invocation
raises ApiException and whose second invocation (the guaranteed post-reconnect
attempt) raises a non-ApiException error, the error does propagate unchanged,
but init_clients has been invoked once — refuting the claim's clause that an
operation raising a non-transient error on some attempt never triggers the
reconnect callback. -/
theorem nontransient_post_reconnect_cex :
    postReconnectOther 1 = .error (.other "boom") ∧
    (wrapper 1 postReconnectOther none).1.reconnects = 1 ∧
    (wrapper 1 postReconnectOther none).1.calls = 2 ∧
    (wrapper 1 postReconnectOther none).2 = .error (.other "boom") :=
  ⟨rfl, rfl, rfl, rfl⟩

/-- C3 (amended): if the wrapped operation raises a non-ApiException error at
an attempt inside the bounded loop (invocation j < tries, all earlier
invocations having raised ApiException), the wrapper stops immediately: the
error propagates unchanged, no further invocation is made, and init_clients is
never invoked; in particular j = 0 means exactly one invocation. -/
theorem nontransient_in_loop {α : Type} (N j : Nat) (f : Nat → Except Exc α)
    (m : String) (rc : Option Exc)
    (hj : j < N)
    (hfail : ∀ i, i < j → ∃ e, f i = .error (.api e))
    (hother : f j = .error (.other m)) :
    (wrapper N f rc).1.calls = j + 1 ∧
    (wrapper N f rc).1.reconnects = 0 ∧
    (wrapper N f rc).2 = .error (.other m) := by
  rw [wrapper_stop N j f rc (.error (.other m)) hj hfail hother
    (fun e h => by simp at h)]
  exact ⟨rfl, rfl, rfl⟩

/-- Witness for the amended C3: tries = 1, non-ApiException on the very first
invocation, hence exactly one invocation and no reconnect. -/
theorem nontransient_in_loop_witness :
    (wrapper 1 (fun _ => (Except.error (Exc.other "bad") : Except Exc Nat))
        none).1.calls = 0 + 1 ∧
    (wrapper 1 (fun _ => (Except.error (Exc.other "bad") : Except Exc Nat))
        none).1.reconnects = 0 ∧
    (wrapper 1 (fun _ => (Except.error (Exc.other "bad") : Except Exc Nat))
        none).2 = Except.error (Exc.other "bad") :=
  nontransient_in_loop 1 0 (fun _ => Except.error (Exc.other "bad")) "bad" none
    (by omega) (fun i hi => absurd hi (Nat.not_lt_zero i)) rfl

/-- C4: within the bounded loop, retry is decided by error kind alone.  At an
attempt j < tries reached after j ApiException failures: a non-ApiException
error is never retried — the wrapper stops at j + 1 invocations and propagates
it unchanged — while an ApiException failure is always retried — at least one
further invocation follows (given a functioning reconnect). -/
theorem retry_iff_transient_kind {α : Type} (N j : Nat)
    (f : Nat → Except Exc α) (rc : Option Exc)
    (hj : j < N)
    (hreach : ∀ i, i < j → ∃ e, f i = .error (.api e)) :
    (∀ m, f j = .error (.other m) →
      (wrapper N f rc).1.calls = j + 1 ∧
      (wrapper N f rc).2 = .error (.other m)) ∧
    (∀ m, f j = .error (.api m) → j + 2 ≤ (wrapper N f none).1.calls) := by
  constructor
  · intro m hm
    rw [wrapper_stop N j f rc (.error (.other m)) hj hreach hm
      (fun e h => by simp at h)]
    exact ⟨rfl, rfl⟩
  · intro m hm
    have hfail : ∀ i, i < j + 1 → ∃ e, f i = .error (.api e) := by
      intro i hi
      rcases Nat.lt_or_ge i j with h | h
      · exact hreach i h
      · exact ⟨m, by rw [show i = j by omega]; exact hm⟩
    rcases Nat.lt_or_ge (j + 1) N with hN | hN
    · have hlow := retryLoop_calls_lower f (j + 1) N 0 Trace.init hN
        (fun i hi => by simpa using hfail i hi)
      have hge := wrapper_calls_ge_loop N f
      have h0 : Trace.init.calls = 0 := rfl
      rw [h0] at hlow
      omega
    · have hNeq : N = j + 1 := by omega
      subst hNeq
      rw [wrapper_exhaust (j + 1) f none hfail]

/-- Witness for C4 at tries = 2, attempt 0: an ApiException on the first
invocation is followed by at least one further invocation. -/
theorem retry_iff_transient_kind_witness :
    0 + 2 ≤ (wrapper 2 (fun _ => (Except.error (Exc.api "x") : Except Exc Nat))
        none).1.calls :=
  (retry_iff_transient_kind 2 0 (fun _ => Except.error (Exc.api "x")) none
    (by omega) (fun i hi => absurd hi (Nat.not_lt_zero i))).2 "x" rfl

/-- An operation for the C5 counterexample: every invocation raises the
ApiException. -/
def alwaysApiDown : Nat → Except Exc Nat := fun _ => .error (.api "down")

/-- C5 counterexample: tries = 1 and an operation failing transiently on every
invocation.  Both invocations fail (2 calls, the run raises the ApiException of
the final attempt), yet only 1 warning is logged, not the 2 the claim's
"one warning per failed attempt, including the final post-reconnect attempt"
requires: the final attempt sits outside the try/except and logs nothing. -/
theorem final_attempt_no_warning_cex :
    (wrapper 1 alwaysApiDown none).1.calls = 2 ∧
    (wrapper 1 alwaysApiDown none).2 = .error (.api "down") ∧
    (wrapper 1 alwaysApiDown none).1.warnings = 1 ∧
    ¬ (wrapper 1 alwaysApiDown none).1.warnings = 2 :=
  ⟨rfl, rfl, rfl, by decide⟩

/-- Whether the character list `pat` occurs at the start of `s`. -/
def startsWithChars : List Char → List Char → Bool
  | [], _ => true
  | _ :: _, [] => false
  | a :: pat, b :: s => a = b && startsWithChars pat s

/-- Whether the character list `pat` occurs contiguously anywhere in `s`. -/
def hasSubChars (pat : List Char) : List Char → Bool
  | [] => startsWithChars pat []
  | c :: s => startsWithChars pat (c :: s) || hasSubChars pat s

/-- The Python expression `pat in s` on strings: substring containment. -/
def pyIn (pat s : String) : Bool := hasSubChars pat.data s.data

/-- The text of the warning the decorator logs when it catches an
ApiException `e` (api_client.py line 24:
logger.warning of ApiException is caught %s. Retrying... formatted with e). -/
def warningText (e : String) : String :=
  "ApiException is caught " ++ e ++ ". Retrying..."

/-- The warning-level log entries emitted by the bounded loop of
retry_on_api_exception.wrapper, in order: one entry, built from the caught
exception, per in-loop invocation that raises ApiException; a return or a
non-ApiException emits nothing and ends the loop. -/
def retryLoopLog {α : Type} (f : Nat → Except Exc α) :
    Nat → Nat → List String
  | 0, _ => []
  | fuel + 1, i =>
    match f i with
    | .ok _ => []
    | .error (.api e) => warningText e :: retryLoopLog f fuel (i + 1)
    | .error (.other _) => []

/-- All warning-level log entries of one run of the decorated wrapper: the
code after the loop (init_clients and the unguarded final attempt, lines
27-28) contains no logging call, so the run's log is the loop's log. -/
def wrapperLog {α : Type} (tries : Nat) (f : Nat → Except Exc α) :
    List String :=
  retryLoopLog f tries 0

/-- A character list starts with itself followed by anything. -/
theorem startsWithChars_append_self (p l : List Char) :
    startsWithChars p (p ++ l) = true := by
  induction p with
  | nil => rfl
  | cons a p ih => simp [startsWithChars, ih]

/-- A pattern found at the start of `s` occurs in `s`. -/
theorem hasSubChars_of_startsWith (p s : List Char)
    (h : startsWithChars p s = true) : hasSubChars p s = true := by
  cases s with
  | nil => exact h
  | cons c cs => simp [hasSubChars, h]

/-- Substring occurrence survives prepending characters. -/
theorem hasSubChars_append_left (p : List Char) (l1 : List Char)
    (s : List Char) (h : hasSubChars p s = true) :
    hasSubChars p (l1 ++ s) = true := by
  induction l1 with
  | nil => exact h
  | cons c l1 ih => simp [hasSubChars, ih]

/-- Each warning message contains the text of the exception it was built
from: the Python `in` test of the exception text against the message holds. -/
theorem pyIn_warningText (e : String) : pyIn e (warningText e) = true := by
  unfold pyIn warningText
  rw [String.data_append, String.data_append, List.append_assoc]
  exact hasSubChars_append_left e.data _ _
    (hasSubChars_of_startsWith e.data _ (startsWithChars_append_self e.data _))

/-- The loop's warning counter counts exactly the log entries the loop
emits. -/
theorem retryLoop_warnings_eq_log_length {α : Type}
    (f : Nat → Except Exc α) (fuel : Nat) :
    ∀ (i : Nat) (t : Trace),
      (retryLoop f fuel i t).1.warnings =
        t.warnings + (retryLoopLog f fuel i).length := by
  induction fuel with
  | zero => intro i t; simp [retryLoop, retryLoopLog]
  | succ n ih =>
    intro i t
    obtain ⟨c, w, s, rc⟩ := t
    rcases hfi : f i with e | v
    · rcases e with m | m
      · have h := ih (i + 1) ⟨c + 1, w + 1, s + 1, rc⟩
        simp only [retryLoop, retryLoopLog, hfi]
        simp at h ⊢
        omega
      · simp [retryLoop, retryLoopLog, hfi]
    · simp [retryLoop, retryLoopLog, hfi]

/-- Neither the reconnect nor the final attempt logs: a run's warning count
is the loop's warning count, whatever the reconnect callback does. -/
theorem wrapper_warnings_eq_loop {α : Type} (N : Nat)
    (f : Nat → Except Exc α) (rc : Option Exc) :
    (wrapper N f rc).1.warnings = (retryLoop f N 0 Trace.init).1.warnings := by
  unfold wrapper
  rcases h : retryLoop f N 0 Trace.init with ⟨t, i, ro⟩
  rcases ro with _ | r
  · rcases rc with _ | e <;> simp
  · simp

/-- The j-th warning entry of the loop's log was built from the ApiException
the wrapped function raised at its j-th invocation. -/
theorem retryLoopLog_entry {α : Type} (f : Nat → Except Exc α) (fuel : Nat) :
    ∀ (i jj : Nat), jj < (retryLoopLog f fuel i).length →
      ∃ e, f (i + jj) = .error (.api e) ∧
        (retryLoopLog f fuel i)[jj]? = some (warningText e) := by
  induction fuel with
  | zero => intro i jj hjj; simp [retryLoopLog] at hjj
  | succ n ih =>
    intro i jj hjj
    rcases hfi : f i with e | v
    · rcases e with m | m
      · have hlog : retryLoopLog f (n + 1) i =
            warningText m :: retryLoopLog f n (i + 1) := by
          simp [retryLoopLog, hfi]
        rcases jj with _ | j
        · exact ⟨m, by simpa using hfi, by rw [hlog]; simp⟩
        · rw [hlog] at hjj
          simp only [List.length_cons] at hjj
          obtain ⟨e', he', hg⟩ := ih (i + 1) j (by omega)
          refine ⟨e', ?_, ?_⟩
          · rw [show i + (j + 1) = i + 1 + j by omega]; exact he'
          · rw [hlog]
            simpa using hg
      · rw [show retryLoopLog f (n + 1) i = [] by simp [retryLoopLog, hfi]]
          at hjj
        simp at hjj
    · rw [show retryLoopLog f (n + 1) i = [] by simp [retryLoopLog, hfi]]
        at hjj
      simp at hjj

/-- C5 (amended): exactly one warning-level log entry is emitted per attempt
that fails with the ApiException inside the bounded loop, whatever the
execution shape — loop exhaustion after N transient failures (whatever the
reconnect and the final attempt then do, a final-attempt failure logs
nothing, the final attempt lying outside the try/except: N warnings), success
at invocation k ≤ N (success logs nothing: k - 1 warnings), or a
non-ApiException at invocation j < N after j transient failures (j warnings)
— each warning includes its attempt's context: the j-th log entry is built
from the ApiException raised at invocation j and contains that exception's
text; and every run's warning count equals its log's length. -/
theorem warnings_count_amended {α : Type} (N k j : Nat)
    (f g q : Nat → Except Exc α) (v : α) (m : String) (rc : Option Exc)
    (hf : ∀ i, i < N → ∃ e, f i = .error (.api e))
    (hk1 : 1 ≤ k) (hkN : k ≤ N)
    (hgfail : ∀ i, i < k - 1 → ∃ e, g i = .error (.api e))
    (hgok : g (k - 1) = .ok v)
    (hj : j < N)
    (hqfail : ∀ i, i < j → ∃ e, q i = .error (.api e))
    (hqother : q j = .error (.other m)) :
    (wrapper N f rc).1.warnings = N ∧
    (wrapper N g rc).1.warnings = k - 1 ∧
    (wrapper N q rc).1.warnings = j ∧
    (∀ (p : Nat → Except Exc α) (rc' : Option Exc),
      (wrapperLog N p).length = (wrapper N p rc').1.warnings) ∧
    (∀ (p : Nat → Except Exc α) (jj : Nat), jj < (wrapperLog N p).length →
      ∃ e, p jj = .error (.api e) ∧
        (wrapperLog N p)[jj]? = some (warningText e) ∧
        pyIn e (warningText e) = true) := by
  refine ⟨?_, ?_, ?_, ?_, ?_⟩
  · rcases rc with _ | e
    · rw [wrapper_exhaust N f none hf]
    · rw [wrapper_exhaust N f (some e) hf]
  · rw [wrapper_stop N (k - 1) g rc (.ok v) (by omega) hgfail hgok
      (fun e h => by simp at h)]
  · rw [wrapper_stop N j q rc (.error (.other m)) hj hqfail hqother
      (fun e h => by simp at h)]
  · intro p rc'
    rw [wrapper_warnings_eq_loop N p rc',
      retryLoop_warnings_eq_log_length p N 0 Trace.init]
    simp [wrapperLog, Trace.init]
  · intro p jj hjj
    obtain ⟨e, he, hg⟩ := retryLoopLog_entry p N 0 jj (by simpa using hjj)
    exact ⟨e, by simpa using he, hg, pyIn_warningText e⟩

/-- Operation for the C5 witness: ApiException on invocations 0-2, success on
the post-reconnect invocation 3 (the spec's N = 3 concrete scenario). -/
def failThriceThenOk : Nat → Except Exc Nat := fun i =>
  if i < 3 then .error (.api "w") else .ok 9

/-- Operation for the C5 witness: ApiException on invocation 0, success from
invocation 1 on (success at k = 2 of N = 3). -/
def failOnceThenOk : Nat → Except Exc Nat := fun i =>
  if i = 0 then .error (.api "w") else .ok 5

/-- Operation for the C5 witness: ApiException on invocation 0, a
non-ApiException from invocation 1 on (non-transient at j = 1 of N = 3). -/
def failOnceThenOther : Nat → Except Exc Nat := fun i =>
  if i = 0 then .error (.api "w") else .error (.other "perm")

/-- Witness for the amended C5: in the spec's N = 3 scenario exactly 3
warnings are logged; success at k = 2 logs exactly 1; a non-ApiException at
invocation j = 1 logs exactly 1; and the always-failing run's warning count
equals its log's length. -/
theorem warnings_count_amended_witness :
    (wrapper 3 failThriceThenOk none).1.warnings = 3 ∧
    (wrapper 3 failOnceThenOk none).1.warnings = 2 - 1 ∧
    (wrapper 3 failOnceThenOther none).1.warnings = 1 ∧
    (wrapperLog 3 failThriceThenOk).length =
      (wrapper 3 failThriceThenOk none).1.warnings :=
  have h := warnings_count_amended 3 2 1 failThriceThenOk failOnceThenOk
    failOnceThenOther 5 "perm" none
    (fun i hi => ⟨"w", by simp [failThriceThenOk, hi]⟩)
    (by omega) (by omega)
    (fun i hi => ⟨"w", by interval_cases i; rfl⟩) rfl
    (by omega)
    (fun i hi => ⟨"w", by interval_cases i; rfl⟩) rfl
  ⟨h.1, h.2.1, h.2.2.1, h.2.2.2.1 failThriceThenOk none⟩

/-- C6: if the first N (= tries) invocations all raise the ApiException and
init_clients itself raises, that exception propagates to the caller as-is:
init_clients is invoked once, is not retried, and the guaranteed final
operation attempt is never made (still exactly N invocations). -/
theorem reconnect_failure_propagates {α : Type} (N : Nat)
    (f : Nat → Except Exc α) (e : Exc)
    (hf : ∀ i, i < N → ∃ e, f i = .error (.api e)) :
    (wrapper N f (some e)).1.calls = N ∧
    (wrapper N f (some e)).1.reconnects = 1 ∧
    (wrapper N f (some e)).2 = .error e := by
  rw [wrapper_exhaust N f (some e) hf]
  exact ⟨rfl, rfl, rfl⟩

/-- Witness for C6 at N = 2 with a reconnect that raises a non-ApiException
connection-setup error. -/
theorem reconnect_failure_propagates_witness :
    (wrapper 2 (fun _ => (Except.error (Exc.api "down") : Except Exc Nat))
        (some (Exc.other "kubeconfig"))).1.calls = 2 ∧
    (wrapper 2 (fun _ => (Except.error (Exc.api "down") : Except Exc Nat))
        (some (Exc.other "kubeconfig"))).1.reconnects = 1 ∧
    (wrapper 2 (fun _ => (Except.error (Exc.api "down") : Except Exc Nat))
        (some (Exc.other "kubeconfig"))).2 = Except.error (Exc.other "kubeconfig") :=
  reconnect_failure_propagates 2 (fun _ => Except.error (Exc.api "down"))
    (Exc.other "kubeconfig") (fun _ _ => ⟨"down", rfl⟩)

/-! ### Client methods beyond the decorator -/

/-- Result of running a Python method: a returned value, a propagated
exception, or the interpreter's unbound-local error raised when a local
variable is read before any assignment to it executed. -/
inductive PyResult (α : Type) where
  | ok (v : α)
  | exc (e : Exc)
  | unboundLocalError (var : String)
deriving DecidableEq

/-- A replica-set object, reduced to the one field get_replica_set reads:
rs_obj.metadata.name. -/
structure RSObj where
  name : String
deriving DecidableEq

/-- The filtering loop in get_replica_set's finally block (api_client.py
lines 660-666): keep every item when deployment is falsy (None or the empty
string), else keep the items whose name contains the deployment name. -/
def rsFilterLoop (deployment : Option String) (items : List RSObj) :
    List RSObj :=
  items.filter fun rs =>
    match deployment with
    | none => true
    | some d => if d = "" then true else pyIn d rs.name

/-- Client.get_replica_set (api_client.py lines 651-667), parameterized by the
outcomes of the two underlying list calls
(apps_v1_h.list_namespaced_replica_set and the fallback
v1_networking.list_namespaced_replica_set).  The source binds rs_objs in a try
whose except ApiException retries the fallback inside a second try whose
except ApiException only logs; the bare finally block then reads rs_objs and
returns the filtered list.  When neither call bound rs_objs — both raised
ApiException, or a non-ApiException is in flight — the read of rs_objs in the
finally block raises UnboundLocalError (replacing any in-flight exception,
since it is raised while the finally block runs). -/
def get_replica_set (list_primary list_fallback : Except Exc (List RSObj))
    (deployment : Option String) : PyResult (List RSObj) :=
  match list_primary with
  | .ok rs_objs => .ok (rsFilterLoop deployment rs_objs)
  | .error (.api _) =>
    match list_fallback with
    | .ok rs_objs => .ok (rsFilterLoop deployment rs_objs)
    | .error _ => .unboundLocalError "rs_objs"
  | .error (.other _) => .unboundLocalError "rs_objs"

/-- C7: when the primary list call raises ApiException and the fallback list
call also raises ApiException, get_replica_set terminates with an
undefined-variable error on rs_objs — it neither returns a list nor re-raises
the original ApiException. -/
theorem get_replica_set_double_failure_unbound (e1 e2 : String)
    (deployment : Option String) :
    get_replica_set (.error (.api e1)) (.error (.api e2)) deployment =
      .unboundLocalError "rs_objs" := rfl

/-- Client.is_namespace_present (api_client.py lines 552-557), parameterized
by the underlying v1_h.read_namespace call: return True when the read
succeeds, False when it raises ApiException; any other exception is not
caught and propagates. -/
def is_namespace_present {α : Type} (read_namespace : String → Except Exc α)
    (ns : String) : PyResult Bool :=
  match read_namespace ns with
  | .ok _ => .ok true
  | .error (.api _) => .ok false
  | .error (.other m) => .exc (.other m)

/-- C8: is_namespace_present never propagates the ApiException — it returns
True when the underlying read_namespace succeeds and False when that call
raises ApiException — and every exception that does escape is a
non-ApiException of the underlying call, unchanged. -/
theorem is_namespace_present_spec {α : Type}
    (read_namespace : String → Except Exc α) (ns : String) :
    (∀ m, is_namespace_present read_namespace ns ≠ .exc (.api m)) ∧
    (∀ v, read_namespace ns = .ok v →
      is_namespace_present read_namespace ns = .ok true) ∧
    (∀ m, read_namespace ns = .error (.api m) →
      is_namespace_present read_namespace ns = .ok false) ∧
    (∀ e, is_namespace_present read_namespace ns = .exc e →
      read_namespace ns = .error e ∧ ∀ m, e ≠ .api m) := by
  rcases h : read_namespace ns with e | v
  · rcases e with m | m
    · refine ⟨?_, ?_, ?_, ?_⟩ <;> intro x <;>
        simp [is_namespace_present, h]
    · refine ⟨?_, ?_, ?_, ?_⟩ <;> intro x <;>
        simp [is_namespace_present, h] <;> rintro rfl <;> simp
  · refine ⟨?_, ?_, ?_, ?_⟩ <;> intro x <;>
      simp [is_namespace_present, h]

/-- Witness for C8: a read_namespace raising ApiException yields False. -/
theorem is_namespace_present_spec_witness :
    is_namespace_present
      (fun _ => (Except.error (Exc.api "404") : Except Exc Nat)) "kube-x" =
      .ok false :=
  (is_namespace_present_spec
    (fun _ => (Except.error (Exc.api "404") : Except Exc Nat))
    "kube-x").2.2.1 "404" rfl

/-- Python dict assignment d[k] = v on an association list: overwrite the
value when the key is present, else append the pair. -/
def dictInsert (d : List (String × String)) (k v : String) :
    List (String × String) :=
  if d.any fun p => p.1 = k then
    d.map fun p => if p.1 = k then (k, v) else p
  else d ++ [(k, v)]

/-- The annotations dictionary built by Client.create_namespace
(api_client.py lines 61-77) for the constructed V1Namespace body: start from
an empty dict; `isolation` replaces it by the isolation annotation;
`ip_fabric_forwarding` and `ip_fabric_snat` each add their key; a truthy
`network_fqname` (not None, not the empty string) replaces the whole dict by
the single network annotation. -/
def create_namespace_annotations (isolation ip_fabric_forwarding
    ip_fabric_snat : Bool) (network_fqname : Option String) :
    List (String × String) :=
  let annotations : List (String × String) := []
  let annotations := if isolation then
      [("opencontrail.org/isolation", "true")] else annotations
  let annotations := if ip_fabric_forwarding then
      dictInsert annotations "opencontrail.org/ip_fabric_forwarding" "true"
    else annotations
  let annotations := if ip_fabric_snat then
      dictInsert annotations "opencontrail.org/ip_fabric_snat" "true"
    else annotations
  match network_fqname with
  | some fq => if fq = "" then annotations
      else [("opencontrail.org/network", fq)]
  | none => annotations

/-- C9: whenever network_fqname is non-empty, the annotations dictionary of
the namespace body holds exactly the network annotation, whatever the
isolation, ip_fabric_forwarding and ip_fabric_snat flags requested: the final
assignment replaces the dictionary instead of updating it. -/
theorem network_fqname_overrides_annotations
    (isolation ip_fabric_forwarding ip_fabric_snat : Bool) (fq : String)
    (hfq : fq ≠ "") :
    create_namespace_annotations isolation ip_fabric_forwarding
      ip_fabric_snat (some fq) = [("opencontrail.org/network", fq)] := by
  simp [create_namespace_annotations, hfq]

/-- Witness for C9: all three flags set and a non-empty network_fqname still
leave only the network annotation. -/
theorem network_fqname_overrides_annotations_witness :
    create_namespace_annotations true true true (some "default:net") =
      [("opencontrail.org/network", "default:net")] :=
  network_fqname_overrides_annotations true true true "default:net"
    (by decide)

/-- Client.delete_pod (api_client.py lines 411-426), parameterized by the
underlying v1_h.delete_namespaced_pod call: the body built from
V1DeleteOptions() is discarded unused, and the underlying call receives only
the pod name and the namespace — neither grace_period_seconds nor
orphan_dependents is forwarded. -/
def delete_pod {ρ : Type} (delete_namespaced_pod : String → String → ρ)
    (ns name : String) (grace_period_seconds : Int)
    (orphan_dependents : Bool) : ρ :=
  delete_namespaced_pod name ns

/-- C10: delete_pod ignores grace_period_seconds and orphan_dependents — for
every namespace and pod name the call made to the underlying delete operation,
hence the result of delete_pod, is identical for all values of those two
parameters. -/
theorem delete_pod_ignores_options {ρ : Type}
    (delete_namespaced_pod : String → String → ρ) (ns name : String)
    (g1 g2 : Int) (o1 o2 : Bool) :
    delete_pod delete_namespaced_pod ns name g1 o1 =
      delete_pod delete_namespaced_pod ns name g2 o2 := rfl

end ApiClient
